import Mathlib

/-!
Shallow embedding of the AxeSTUDIO frame compositor and audio mixing graph.

Sources embedded here:
* src/components/VideoPreview.tsx — renderCanvas (layout geometry, overlay
  pass, ticker animation state) and the drawSource helper;
* src/components/SourcePreview.tsx — the Studio audio-graph reconciliation
  effect and toggleStagePresence;
* src/hooks/useRecording.ts (useSources) — source registry shape.

Machine numbers that the canvas code manipulates are embedded as rationals
(canvas coordinates are JS doubles used at modest magnitudes, exact here);
ids are strings, as in the code.
-/

namespace AxeStudio

/-- Source types, from types.ts: `'camera' | 'screen' | 'guest'`. -/
inductive SourceType
| camera
| screen
| guest
deriving DecidableEq, Repr

/-- Pixel dimensions of a source's current video frame
(videoWidth/videoHeight of the hidden video element). -/
structure SrcImage where
  width : ℚ
  height : ℚ
deriving DecidableEq, Repr

/-- A media source as the Studio sees it: id, display name, type, the number
of audio tracks on its stream, and the current video frame (none while the
hidden video element has readyState < 3, i.e. not frame-ready). -/
structure Source where
  id : String
  name : String
  type : SourceType
  audioTracks : Nat
  image : Option SrcImage
deriving DecidableEq, Repr

/-! ## Stage selection (SourcePreview.tsx, Studio.toggleStagePresence) -/

/-- `toggleStagePresence` from SourcePreview.tsx: remove the id if present,
append it if fewer than two are on stage, otherwise leave the stage as is. -/
def toggleStagePresence (sourceId : String) (prev : List String) : List String :=
  if prev.contains sourceId then
    prev.filter (fun id => id ≠ sourceId)
  else if prev.length < 2 then
    prev ++ [sourceId]
  else
    prev

/-! ## Ticker animation state (VideoPreview.tsx, tickerXRef update) -/

/-- One tick of the ticker offset, from renderCanvas:
`tickerXRef.current = tickerXRef.current < -textWidth ? cw : tickerXRef.current - 2`. -/
def tickerStep (cw textWidth x : ℚ) : ℚ :=
  if x < -textWidth then cw else x - 2

/-- The ticker offset after `n` ticks starting from offset 0. -/
def tickerIter (cw textWidth : ℚ) : Nat → ℚ
| 0 => 0
| n + 1 => tickerStep cw textWidth (tickerIter cw textWidth n)

/-! ## Audio mixing graph reconciliation (SourcePreview.tsx, Studio effect)

`connectedAudioSourcesRef` is a JS `Map<string, MediaStreamAudioSourceNode>`
(unique keys, insertion-ordered); we embed it as an insertion-ordered
association list from source id to a node token.  Node identity is embedded
by handing each `createMediaStreamSource` call a fresh token from a counter,
so "same node instance" is token equality. -/

/-- Taps keyed by source id; the `Nat` is the audio node's identity token. -/
abbrev TapMap := List (String × Nat)

/-- Node lookup in the tap map (JS `Map.get`). -/
def lookupTap (taps : TapMap) (id : String) : Option Nat :=
  (taps.find? (fun p => p.1 = id)).map Prod.snd

/-- Loop 1 of the reconciliation effect: disconnect (drop) every tap whose
id is no longer in `activeSources`; nothing else is examined. -/
def disconnectPass (taps : TapMap) (active : List String) : TapMap :=
  taps.filter (fun p => active.contains p.1)

/-- `source && source.stream.getAudioTracks().length > 0` for a looked-up id:
the id resolves in the registry and its stream carries at least one audio
track. -/
def hasAudio (sources : List Source) (id : String) : Bool :=
  match sources.find? (fun s => s.id = id) with
  | some s => 0 < s.audioTracks
  | none => false

/-- Loop 2 of the reconciliation effect: walk `activeSources` in order and,
for each id that has no tap yet whose source exists and carries audio,
create a fresh node (token = current counter) and connect it. -/
def connectPass : List String → TapMap → List Source → Nat → TapMap × Nat
| [], taps, _, fresh => (taps, fresh)
| id :: rest, taps, sources, fresh =>
    if (lookupTap taps id).isNone then
      if hasAudio sources id then
        connectPass rest (taps ++ [(id, fresh)]) sources (fresh + 1)
      else
        connectPass rest taps sources fresh
    else
      connectPass rest taps sources fresh

/-- The whole reconciliation pass of the Studio audio effect: the disconnect
loop followed by the connect loop. -/
def reconcile (taps : TapMap) (active : List String) (sources : List Source)
    (fresh : Nat) : TapMap × Nat :=
  connectPass active (disconnectPass taps active) sources fresh

/-! ## Layout engine (VideoPreview.tsx, renderCanvas source-drawing pass)

The canvas is 1280 × 720 (the `<canvas width={1280} height={720}>` in
VideoPreview).  What renderCanvas does with each drawable source is recorded
as a `Placement`: the target rectangle handed to drawImageCover /
drawImageContain, the effective fit, and whether the draw went through the
cinematic circular clip. -/

/-- Layout modes, from types.ts. -/
inductive LayoutMode
| solo
| pip
| sideBySide
| heroBelow
| splitVertical
| cinematic
| sidebar
deriving DecidableEq, Repr

/-- Fit policy of a single draw: crop-fill or letterbox. -/
inductive Fit
| cover
| contain
deriving DecidableEq, Repr

/-- A target rectangle on the canvas. -/
structure Rect where
  x : ℚ
  y : ℚ
  w : ℚ
  h : ℚ
deriving DecidableEq, Repr

/-- One recorded source draw of the video pass. -/
structure Placement where
  src : Source
  rect : Rect
  fit : Fit
  circleClip : Bool
deriving DecidableEq, Repr

/-- A drawable item: a source paired with its current frame. -/
structure Item where
  source : Source
  image : SrcImage
deriving DecidableEq, Repr

/-- `drawableSources` from renderCanvas: resolve active ids against the
source list, drop ids with no matching source, then drop sources whose
hidden video has no decoded frame yet. -/
def drawableSources (sources : List Source) (activeSources : List String) :
    List Item :=
  (activeSources.filterMap (fun id => sources.find? (fun s => s.id = id))).filterMap
    (fun s => s.image.map (fun img => ⟨s, img⟩))

/-- The fit `drawSource` actually uses:
`item.source.type === 'screen' ? 'contain' : fit`. -/
def effectiveFit (t : SourceType) (fit : Fit) : Fit :=
  if t = SourceType.screen then Fit.contain else fit

/-- `drawSource` from renderCanvas, recorded as a placement. -/
def drawSource (item : Item) (x y w h : ℚ) (fit : Fit) : Placement :=
  ⟨item.source, ⟨x, y, w, h⟩, effectiveFit item.source.type fit, false⟩

/-- `videoHeight > 0 ? videoWidth / videoHeight : 16/9` for the sidebar
camera inset. -/
def videoRatio (img : SrcImage) : ℚ :=
  if 0 < img.height then img.width / img.height else 16 / 9

/-- The two-or-more-sources arm of renderCanvas: the placements of item1 and
item2 per layout mode.  The trailing `else` branch of the code is PIP, so any
unmatched mode (including `solo`) lands there.  The cinematic secondary is
drawn by calling drawImageCover directly inside a circular clip — it does
not go through drawSource. -/
def twoSourcePlacements (ds : List Item) (item1 item2 : Item)
    (layout : LayoutMode) (cw ch : ℚ) : List Placement :=
  let margin := cw * (15 / 1000)
  if layout = LayoutMode.sideBySide then
    [drawSource item1 0 0 (cw / 2) ch Fit.contain,
     drawSource item2 (cw / 2) 0 (cw / 2) ch Fit.contain]
  else if layout = LayoutMode.sidebar then
    let foundPair :=
      match ds.find? (fun it => it.source.type = SourceType.screen),
            ds.find? (fun it => it.source.type = SourceType.camera) with
      | some screenIt, some cameraIt => (screenIt, cameraIt)
      | _, _ => (item2, item1)
    let screenItem := foundPair.1
    let cameraItem := foundPair.2
    let sidebarWidth := cw * (25 / 100)
    let mainWidth := cw - sidebarWidth
    let padding := sidebarWidth * (1 / 10)
    let vContainerX := padding
    let vContainerY := ch * (5 / 100)
    let vContainerW := sidebarWidth - padding * 2
    let vContainerH := vContainerW / videoRatio cameraItem.image
    [drawSource screenItem sidebarWidth 0 mainWidth ch Fit.contain,
     drawSource cameraItem vContainerX vContainerY vContainerW vContainerH Fit.cover]
  else if layout = LayoutMode.splitVertical then
    [drawSource item1 0 0 cw (ch / 2) Fit.contain,
     drawSource item2 0 (ch / 2) cw (ch / 2) Fit.contain]
  else if layout = LayoutMode.heroBelow then
    let heroHeight := ch * (8 / 10)
    let belowHeight := ch - heroHeight
    let belowWidth := belowHeight * (16 / 9)
    [drawSource item1 0 0 cw heroHeight Fit.cover,
     drawSource item2 ((cw - belowWidth) / 2) heroHeight belowWidth belowHeight Fit.cover]
  else if layout = LayoutMode.cinematic then
    let radius := cw * (1 / 10)
    let circleX := cw - radius - margin
    let circleY := ch - radius - margin
    [drawSource item1 0 0 cw ch Fit.cover,
     ⟨item2.source, ⟨circleX - radius, circleY - radius, radius * 2, radius * 2⟩,
       Fit.cover, true⟩]
  else
    let pipWidth := cw * (25 / 100)
    let pipHeight := pipWidth / (16 / 9)
    [drawSource item1 0 0 cw ch Fit.cover,
     drawSource item2 (cw - pipWidth - margin) (ch - pipHeight - margin)
       pipWidth pipHeight Fit.cover]

/-- Result of the source-drawing pass: the idle placeholder ("Add a source
to the stage") or the list of recorded source draws. -/
inductive VideoPass
| placeholder
| draws (ps : List Placement)
deriving DecidableEq, Repr

/-- The source-drawing pass of renderCanvas: dispatch on how many active
sources are drawable. -/
def videoPass (sources : List Source) (activeSources : List String)
    (layout : LayoutMode) (cw ch : ℚ) : VideoPass :=
  match drawableSources sources activeSources with
  | [] => VideoPass.placeholder
  | [item1] => VideoPass.draws [drawSource item1 0 0 cw ch Fit.contain]
  | item1 :: item2 :: rest =>
      VideoPass.draws
        (twoSourcePlacements (item1 :: item2 :: rest) item1 item2 layout cw ch)

/-! ## Overlay settings and the overlay pass (VideoPreview.tsx)

The sub-configs of OverlaySettings from types.ts, restricted to the fields
the overlay pass reads for its draw decisions (each sub-config's `show` flag
is embedded as `showFlag`, since `show` is reserved in Lean).  Asset
readiness (image `complete`/naturalWidth, video readyState, the measured
ticker text width) lives in `AssetState`, the per-tick snapshot of the
externally loaded assets. -/

/-- `overlay.type`: `'procedural' | 'image' | 'video'`. -/
inductive OverlayType
| procedural
| image
| video
deriving DecidableEq, Repr

structure LogoSettings where
  showFlag : Bool
  url : Option String
deriving DecidableEq, Repr

structure BannerSettings where
  showFlag : Bool
deriving DecidableEq, Repr

structure LowerThirdSettings where
  showFlag : Bool
deriving DecidableEq, Repr

structure UploadedOverlaySettings where
  showFlag : Bool
  style : String
  url : Option String
  type : OverlayType
deriving DecidableEq, Repr

structure Filters where
  brightness : ℚ
  contrast : ℚ
  saturate : ℚ
  grayscale : Bool
deriving DecidableEq, Repr

structure CountdownSettings where
  showFlag : Bool
deriving DecidableEq, Repr

structure TickerSettings where
  showFlag : Bool
  text : String
deriving DecidableEq, Repr

structure BulletList where
  id : String
  items : String
deriving DecidableEq, Repr

structure BulletListsSettings where
  lists : List BulletList
  activeListId : Option String
  showFlag : Bool
deriving DecidableEq, Repr

structure TextOverlaySettings where
  showFlag : Bool
  text : String
deriving DecidableEq, Repr

structure OverlaySettings where
  logo : LogoSettings
  banner : BannerSettings
  lowerThird : LowerThirdSettings
  overlay : UploadedOverlaySettings
  filters : Filters
  countdown : CountdownSettings
  ticker : TickerSettings
  bulletLists : BulletListsSettings
  textOverlay : TextOverlaySettings
deriving DecidableEq, Repr

/-- Per-tick readiness snapshot of externally loaded assets, plus the
measured ticker text width (`ctx.measureText(settings.ticker.text).width`). -/
structure AssetState where
  overlayImageComplete : Bool
  overlayImageNaturalWidth : Nat
  overlayVideoReadyState : Nat
  logoComplete : Bool
  logoNaturalHeight : Nat
  tickerTextWidth : ℚ
deriving DecidableEq, Repr

/-- JS truthiness of a nullable string: null and "" are falsy. -/
def truthy : Option String → Bool
| none => false
| some u => !(u == "")

/-- Media resolution for the uploaded overlay: an image that is complete
with positive natural width, or a video with readyState ≥ 3. -/
def uploadedOverlayMediaReady (s : OverlaySettings) (a : AssetState) : Bool :=
  (s.overlay.type == OverlayType.image && a.overlayImageComplete
      && decide (0 < a.overlayImageNaturalWidth))
  || (s.overlay.type == OverlayType.video && decide (3 ≤ a.overlayVideoReadyState))

/-- `settings.overlay.show && settings.overlay.url` and a resolved media. -/
def uploadedOverlayOn (s : OverlaySettings) (a : AssetState) : Bool :=
  s.overlay.showFlag && truthy s.overlay.url && uploadedOverlayMediaReady s a

/-- `overlay.show && overlay.type === 'procedural' && overlay.style !== 'none'`. -/
def proceduralOn (s : OverlaySettings) : Bool :=
  s.overlay.showFlag && (s.overlay.type == OverlayType.procedural)
    && !(s.overlay.style == "none")

/-- `textOverlay.show && textOverlay.text.trim()`. -/
def freestyleOn (s : OverlaySettings) : Bool :=
  s.textOverlay.showFlag && !(s.textOverlay.text.trim == "")

/-- `logo.show && logo.url && complete && naturalHeight !== 0`. -/
def logoOn (s : OverlaySettings) (a : AssetState) : Bool :=
  s.logo.showFlag && truthy s.logo.url && a.logoComplete
    && decide (a.logoNaturalHeight ≠ 0)

/-- `lists.find(l => l.id === bulletLists.activeListId)`. -/
def activeBulletList (s : OverlaySettings) : Option BulletList :=
  s.bulletLists.lists.find? (fun l => s.bulletLists.activeListId == some l.id)

/-- `bulletLists.show && bulletLists.activeListId` and the list resolves. -/
def bulletListOn (s : OverlaySettings) : Bool :=
  s.bulletLists.showFlag && truthy s.bulletLists.activeListId
    && (activeBulletList s).isSome

/-- Items of a bullet list: newline-split, blank lines dropped. -/
def bulletItems (l : BulletList) : List String :=
  (l.items.splitOn "\n").filter (fun line => !(line.trim == ""))

/-- The nine overlay layers of the overlay pass, bottom to top. -/
inductive Layer
| uploadedOverlay
| procedural
| freestyle
| ticker
| logo
| bulletList
| banner
| lowerThird
| countdown
deriving DecidableEq, Repr

/-- One recorded overlay draw, with the data that varies per tick. -/
inductive OverlayOp
| uploadedOverlay
| procedural (style : String)
| freestyle (text : String)
| ticker (text : String) (x : ℚ)
| logo
| bulletList (items : List String)
| banner
| lowerThird
| countdown (remaining : Nat)
deriving DecidableEq, Repr

/-- The layer an overlay op belongs to. -/
def layerOf : OverlayOp → Layer
| .uploadedOverlay => .uploadedOverlay
| .procedural _ => .procedural
| .freestyle _ => .freestyle
| .ticker _ _ => .ticker
| .logo => .logo
| .bulletList _ => .bulletList
| .banner => .banner
| .lowerThird => .lowerThird
| .countdown _ => .countdown

/-- The fixed bottom-to-top z-order of the overlay pass. -/
def layerOrder : List Layer :=
  [Layer.uploadedOverlay, Layer.procedural, Layer.freestyle, Layer.ticker,
   Layer.logo, Layer.bulletList, Layer.banner, Layer.lowerThird, Layer.countdown]

/-- Whether a layer is enabled this tick (its draw condition in the code). -/
def layerEnabled (s : OverlaySettings) (a : AssetState) : Layer → Bool
| .uploadedOverlay => uploadedOverlayOn s a
| .procedural => proceduralOn s
| .freestyle => freestyleOn s
| .ticker => s.ticker.showFlag
| .logo => logoOn s a
| .bulletList => bulletListOn s
| .banner => s.banner.showFlag
| .lowerThird => s.lowerThird.showFlag
| .countdown => s.countdown.showFlag

/-- The overlay pass of renderCanvas, in the source's statement order,
together with the updated persistent ticker offset (tickerXRef). -/
def overlayPass (s : OverlaySettings) (a : AssetState) (countdownTime : Nat)
    (cw tickerX : ℚ) : List OverlayOp × ℚ :=
  let ops1 : List OverlayOp :=
    if uploadedOverlayOn s a then [OverlayOp.uploadedOverlay] else []
  let ops2 : List OverlayOp :=
    if proceduralOn s then [OverlayOp.procedural s.overlay.style] else []
  let ops3 : List OverlayOp :=
    if freestyleOn s then [OverlayOp.freestyle s.textOverlay.text] else []
  let ops4 : List OverlayOp :=
    if s.ticker.showFlag then [OverlayOp.ticker s.ticker.text tickerX] else []
  let newTickerX : ℚ :=
    if s.ticker.showFlag then tickerStep cw a.tickerTextWidth tickerX else tickerX
  let ops5 : List OverlayOp := if logoOn s a then [OverlayOp.logo] else []
  let ops6 : List OverlayOp :=
    if bulletListOn s then
      [OverlayOp.bulletList (bulletItems ((activeBulletList s).getD ⟨"", ""⟩))]
    else []
  let ops7 : List OverlayOp := if s.banner.showFlag then [OverlayOp.banner] else []
  let ops8 : List OverlayOp :=
    if s.lowerThird.showFlag then [OverlayOp.lowerThird] else []
  let ops9 : List OverlayOp :=
    if s.countdown.showFlag then [OverlayOp.countdown countdownTime] else []
  (ops1 ++ ops2 ++ ops3 ++ ops4 ++ ops5 ++ ops6 ++ ops7 ++ ops8 ++ ops9, newTickerX)

/-- One composed frame: the source pass (drawn under the color filter), the
filter snapshot, and the overlay stack drawn after the filter reset. -/
structure Frame where
  video : VideoPass
  filters : Filters
  overlays : List OverlayOp
deriving DecidableEq, Repr

/-- One invocation of renderCanvas: draw the sources under the color filter,
reset the filter, draw the overlay stack.  Returns the composed frame and
the updated persistent ticker offset. -/
def renderCanvas (sources : List Source) (active : List String)
    (layout : LayoutMode) (s : OverlaySettings) (a : AssetState)
    (countdownTime : Nat) (cw ch tickerX : ℚ) : Frame × ℚ :=
  let vp := videoPass sources active layout cw ch
  let op := overlayPass s a countdownTime cw tickerX
  (⟨vp, s.filters, op.1⟩, op.2)

/-- Area of the intersection of two rectangles (0 when they only touch). -/
def interArea (r1 r2 : Rect) : ℚ :=
  max 0 (min (r1.x + r1.w) (r2.x + r2.w) - max r1.x r2.x) *
    max 0 (min (r1.y + r1.h) (r2.y + r2.h) - max r1.y r2.y)

/-- A rectangle lies within the canvas bounds [0,cw]×[0,ch]. -/
def rectInBounds (r : Rect) (cw ch : ℚ) : Prop :=
  0 ≤ r.x ∧ r.x + r.w ≤ cw ∧ 0 ≤ r.y ∧ r.y + r.h ≤ ch

instance (r : Rect) (cw ch : ℚ) : Decidable (rectInBounds r cw ch) := by
  unfold rectInBounds
  infer_instance

/-! ## Layout lemmas and demo inputs -/

lemma effectiveFit_contain (t : SourceType) :
    effectiveFit t Fit.contain = Fit.contain := by
  unfold effectiveFit
  split <;> rfl

lemma effectiveFit_of_screen (t : SourceType) (fit : Fit) (h : t = SourceType.screen) :
    effectiveFit t fit = Fit.contain := by
  unfold effectiveFit
  rw [if_pos h]

/-- Demo camera with an extremely tall frame (72 × 720, aspect 1:10). -/
def camItemDemo : Item :=
  ⟨⟨"cam", "Tall Camera", SourceType.camera, 1, some ⟨72, 720⟩⟩, ⟨72, 720⟩⟩

/-- Demo screen share with a 16:9 frame. -/
def scrItemDemo : Item :=
  ⟨⟨"scr", "Screen Share", SourceType.screen, 1, some ⟨1280, 720⟩⟩, ⟨1280, 720⟩⟩

lemma mem_pair {α : Type} {p a b : α} (h : p ∈ ([a, b] : List α)) :
    p = a ∨ p = b := by
  rcases List.mem_cons.mp h with h1 | h1
  · exact Or.inl h1
  · rcases List.mem_cons.mp h1 with h2 | h2
    · exact Or.inr h2
    · exact absurd h2 (List.not_mem_nil p)

lemma twoSourcePlacements_sideBySide (ds : List Item) (i1 i2 : Item) (cw ch : ℚ) :
    twoSourcePlacements ds i1 i2 LayoutMode.sideBySide cw ch =
      [drawSource i1 0 0 (cw / 2) ch Fit.contain,
       drawSource i2 (cw / 2) 0 (cw / 2) ch Fit.contain] := rfl

lemma twoSourcePlacements_splitVertical (ds : List Item) (i1 i2 : Item) (cw ch : ℚ) :
    twoSourcePlacements ds i1 i2 LayoutMode.splitVertical cw ch =
      [drawSource i1 0 0 cw (ch / 2) Fit.contain,
       drawSource i2 0 (ch / 2) cw (ch / 2) Fit.contain] := rfl

lemma twoSourcePlacements_heroBelow (ds : List Item) (i1 i2 : Item) (cw ch : ℚ) :
    twoSourcePlacements ds i1 i2 LayoutMode.heroBelow cw ch =
      [drawSource i1 0 0 cw (ch * (8 / 10)) Fit.cover,
       drawSource i2 ((cw - (ch - ch * (8 / 10)) * (16 / 9)) / 2) (ch * (8 / 10))
         ((ch - ch * (8 / 10)) * (16 / 9)) (ch - ch * (8 / 10)) Fit.cover] := rfl

lemma twoSourcePlacements_cinematic (ds : List Item) (i1 i2 : Item) (cw ch : ℚ) :
    twoSourcePlacements ds i1 i2 LayoutMode.cinematic cw ch =
      [drawSource i1 0 0 cw ch Fit.cover,
       ⟨i2.source,
        ⟨cw - cw * (1 / 10) - cw * (15 / 1000) - cw * (1 / 10),
         ch - cw * (1 / 10) - cw * (15 / 1000) - cw * (1 / 10),
         cw * (1 / 10) * 2, cw * (1 / 10) * 2⟩,
        Fit.cover, true⟩] := rfl

lemma twoSourcePlacements_pip (ds : List Item) (i1 i2 : Item) (cw ch : ℚ) :
    twoSourcePlacements ds i1 i2 LayoutMode.pip cw ch =
      [drawSource i1 0 0 cw ch Fit.cover,
       drawSource i2 (cw - cw * (25 / 100) - cw * (15 / 1000))
         (ch - cw * (25 / 100) / (16 / 9) - cw * (15 / 1000))
         (cw * (25 / 100)) (cw * (25 / 100) / (16 / 9)) Fit.cover] := rfl

lemma twoSourcePlacements_solo (ds : List Item) (i1 i2 : Item) (cw ch : ℚ) :
    twoSourcePlacements ds i1 i2 LayoutMode.solo cw ch =
      [drawSource i1 0 0 cw ch Fit.cover,
       drawSource i2 (cw - cw * (25 / 100) - cw * (15 / 1000))
         (ch - cw * (25 / 100) / (16 / 9) - cw * (15 / 1000))
         (cw * (25 / 100)) (cw * (25 / 100) / (16 / 9)) Fit.cover] := rfl

lemma twoSourcePlacements_sidebar_pair (ds : List Item) (i1 i2 : Item) (cw ch : ℚ)
    (sIt cIt : Item)
    (hpair : (match ds.find? (fun it => it.source.type = SourceType.screen),
                    ds.find? (fun it => it.source.type = SourceType.camera) with
              | some screenIt, some cameraIt => (screenIt, cameraIt)
              | _, _ => (i2, i1)) = (sIt, cIt)) :
    twoSourcePlacements ds i1 i2 LayoutMode.sidebar cw ch =
      [drawSource sIt (cw * (25 / 100)) 0 (cw - cw * (25 / 100)) ch Fit.contain,
       drawSource cIt (cw * (25 / 100) * (1 / 10)) (ch * (5 / 100))
         (cw * (25 / 100) - cw * (25 / 100) * (1 / 10) * 2)
         ((cw * (25 / 100) - cw * (25 / 100) * (1 / 10) * 2) / videoRatio cIt.image)
         Fit.cover] := by
  have hbase : twoSourcePlacements ds i1 i2 LayoutMode.sidebar cw ch =
      (fun pr : Item × Item =>
        [drawSource pr.1 (cw * (25 / 100)) 0 (cw - cw * (25 / 100)) ch Fit.contain,
         drawSource pr.2 (cw * (25 / 100) * (1 / 10)) (ch * (5 / 100))
           (cw * (25 / 100) - cw * (25 / 100) * (1 / 10) * 2)
           ((cw * (25 / 100) - cw * (25 / 100) * (1 / 10) * 2) / videoRatio pr.2.image)
           Fit.cover])
        (match ds.find? (fun it => it.source.type = SourceType.screen),
               ds.find? (fun it => it.source.type = SourceType.camera) with
         | some screenIt, some cameraIt => (screenIt, cameraIt)
         | _, _ => (i2, i1)) := rfl
  rw [hbase, hpair]

lemma sidebar_placements_cases (ds : List Item) (i1 i2 : Item) (cw ch : ℚ) :
    ∃ sIt cIt : Item,
      twoSourcePlacements ds i1 i2 LayoutMode.sidebar cw ch =
        [drawSource sIt (cw * (25 / 100)) 0 (cw - cw * (25 / 100)) ch Fit.contain,
         drawSource cIt (cw * (25 / 100) * (1 / 10)) (ch * (5 / 100))
           (cw * (25 / 100) - cw * (25 / 100) * (1 / 10) * 2)
           ((cw * (25 / 100) - cw * (25 / 100) * (1 / 10) * 2) / videoRatio cIt.image)
           Fit.cover] := by
  rcases hf1 : ds.find? (fun it => it.source.type = SourceType.screen) with _ | s1
  · exact ⟨i2, i1,
      twoSourcePlacements_sidebar_pair ds i1 i2 cw ch i2 i1 (by rw [hf1])⟩
  · rcases hf2 : ds.find? (fun it => it.source.type = SourceType.camera) with _ | s2
    · exact ⟨i2, i1,
        twoSourcePlacements_sidebar_pair ds i1 i2 cw ch i2 i1 (by rw [hf1, hf2])⟩
    · exact ⟨s1, s2,
        twoSourcePlacements_sidebar_pair ds i1 i2 cw ch s1 s2 (by rw [hf1, hf2])⟩

/-! ## Audio graph lemmas -/

lemma lookupTap_cons (p : String × Nat) (rest : TapMap) (id : String) :
    lookupTap (p :: rest) id = if p.1 = id then some p.2 else lookupTap rest id := by
  unfold lookupTap
  by_cases h : p.1 = id
  · rw [List.find?_cons_of_pos _ (by simpa using h), if_pos h]
    rfl
  · rw [List.find?_cons_of_neg _ (by simpa using h), if_neg h]

lemma lookupTap_append (taps : TapMap) (j : String) (t : Nat) (id : String) :
    lookupTap (taps ++ [(j, t)]) id =
      if (lookupTap taps id).isSome then lookupTap taps id
      else if j = id then some t else none := by
  induction taps with
  | nil =>
    by_cases h : j = id <;>
      simp [lookupTap, List.find?, h]
  | cons p rest ih =>
    rw [List.cons_append, lookupTap_cons, lookupTap_cons]
    by_cases h : p.1 = id
    · simp [h]
    · simp only [h, if_false]
      exact ih

lemma lookupTap_disconnectPass (taps : TapMap) (active : List String) (id : String) :
    lookupTap (disconnectPass taps active) id =
      if active.contains id then lookupTap taps id else none := by
  induction taps with
  | nil => simp [lookupTap, disconnectPass]
  | cons p rest ih =>
    unfold disconnectPass at ih ⊢
    rw [List.filter_cons]
    by_cases hact : (active.contains p.1) = true
    · rw [if_pos hact, lookupTap_cons, lookupTap_cons]
      by_cases h : p.1 = id
      · subst h
        have hmem : p.1 ∈ active := by simpa using hact
        simp [hmem]
      · simp only [h, if_false]
        exact ih
    · rw [if_neg hact, lookupTap_cons]
      by_cases h : p.1 = id
      · subst h
        have : active.contains p.1 = false := by
          cases hb : active.contains p.1
          · rfl
          · exact absurd hb hact
        rw [ih, this]
        simp
      · simp only [h, if_false]
        exact ih

lemma lookupTap_connectPass_isSome (active : List String) (taps : TapMap)
    (sources : List Source) (fresh : Nat) (id : String)
    (h : (lookupTap taps id).isSome) :
    lookupTap (connectPass active taps sources fresh).1 id = lookupTap taps id := by
  induction active generalizing taps fresh with
  | nil => simp [connectPass]
  | cons a rest ih =>
    by_cases hnone : (lookupTap taps a).isNone
    · by_cases haud : hasAudio sources a
      · have hne : a ≠ id := by
          intro he; subst he
          rw [Option.isNone_iff_eq_none] at hnone
          rw [hnone] at h; simp at h
        have happ : lookupTap (taps ++ [(a, fresh)]) id = lookupTap taps id := by
          rw [lookupTap_append, if_pos h]
        simp only [connectPass, hnone, haud, if_pos, if_true]
        rw [ih (taps ++ [(a, fresh)]) (fresh + 1) (by rw [happ]; exact h), happ]
      · simp only [connectPass, hnone, haud, if_true, if_false]
        exact ih taps fresh h
    · simp only [connectPass, hnone, if_false]
      exact ih taps fresh h

lemma lookupTap_connectPass_notMem (active : List String) (taps : TapMap)
    (sources : List Source) (fresh : Nat) (id : String)
    (h : id ∉ active) :
    lookupTap (connectPass active taps sources fresh).1 id = lookupTap taps id := by
  induction active generalizing taps fresh with
  | nil => simp [connectPass]
  | cons a rest ih =>
    have hne : a ≠ id := fun he => h (he ▸ List.mem_cons_self a rest)
    have hrest : id ∉ rest := fun hm => h (List.mem_cons_of_mem a hm)
    by_cases hnone : (lookupTap taps a).isNone
    · by_cases haud : hasAudio sources a
      · have happ : lookupTap (taps ++ [(a, fresh)]) id = lookupTap taps id := by
          rw [lookupTap_append]
          by_cases hs : (lookupTap taps id).isSome
          · rw [if_pos hs]
          · rw [if_neg hs, if_neg hne]
            simp only [Option.isSome_iff_exists, not_exists] at hs
            cases hv : lookupTap taps id with
            | none => rfl
            | some v => exact absurd hv (hs v)
        simp only [connectPass, hnone, haud, if_true]
        rw [ih (taps ++ [(a, fresh)]) (fresh + 1) hrest, happ]
      · simp only [connectPass, hnone, haud, if_true, if_false]
        exact ih taps fresh hrest
    · simp only [connectPass, hnone, if_false]
      exact ih taps fresh hrest

lemma lookupTap_connectPass_new (active : List String) (taps : TapMap)
    (sources : List Source) (fresh : Nat) (id : String)
    (hnone : lookupTap taps id = none) (hmem : id ∈ active)
    (haud : hasAudio sources id) :
    ∃ t, fresh ≤ t ∧ lookupTap (connectPass active taps sources fresh).1 id = some t := by
  induction active generalizing taps fresh with
  | nil => exact absurd hmem (List.not_mem_nil id)
  | cons a rest ih =>
    by_cases hae : a = id
    · subst hae
      have h1 : (lookupTap taps a).isNone := by rw [hnone]; rfl
      simp only [connectPass, h1, haud, if_true]
      refine ⟨fresh, le_refl fresh, ?_⟩
      have happ : lookupTap (taps ++ [(a, fresh)]) a = some fresh := by
        rw [lookupTap_append, hnone]
        simp
      rw [lookupTap_connectPass_isSome rest _ sources (fresh + 1) a
        (by rw [happ]; rfl), happ]
    · have hrest : id ∈ rest := by
        rcases List.mem_cons.mp hmem with h | h
        · exact absurd h.symm hae
        · exact h
      by_cases h1 : (lookupTap taps a).isNone
      · by_cases h2 : hasAudio sources a
        · have happ : lookupTap (taps ++ [(a, fresh)]) id = none := by
            rw [lookupTap_append, hnone]
            simp [hae]
          simp only [connectPass, h1, h2, if_true]
          obtain ⟨t, ht, hl⟩ := ih (taps ++ [(a, fresh)]) (fresh + 1) happ hrest
          exact ⟨t, le_trans (Nat.le_succ fresh) ht, hl⟩
        · simp only [connectPass, h1, h2, if_true, if_false]
          exact ih taps fresh hnone hrest
      · simp only [connectPass, h1, if_false]
        exact ih taps fresh hnone hrest

lemma lookupTap_connectPass_noAudio (active : List String) (taps : TapMap)
    (sources : List Source) (fresh : Nat) (id : String)
    (hnone : lookupTap taps id = none) (haud : ¬ hasAudio sources id) :
    lookupTap (connectPass active taps sources fresh).1 id = none := by
  induction active generalizing taps fresh with
  | nil => simpa [connectPass] using hnone
  | cons a rest ih =>
    by_cases h1 : (lookupTap taps a).isNone
    · by_cases h2 : hasAudio sources a
      · have hae : a ≠ id := fun he => haud (he ▸ h2)
        have happ : lookupTap (taps ++ [(a, fresh)]) id = none := by
          rw [lookupTap_append, hnone]
          simp [hae]
        simp only [connectPass, h1, h2, if_true]
        exact ih (taps ++ [(a, fresh)]) (fresh + 1) happ
      · simp only [connectPass, h1, h2, if_true, if_false]
        exact ih taps fresh hnone
    · simp only [connectPass, h1, if_false]
      exact ih taps fresh hnone

lemma count_eq_zero_of_lookupTap_none (taps : TapMap) (id : String)
    (h : lookupTap taps id = none) : (taps.map Prod.fst).count id = 0 := by
  induction taps with
  | nil => simp
  | cons p rest ih =>
    rw [lookupTap_cons] at h
    by_cases hp : p.1 = id
    · rw [if_pos hp] at h
      exact absurd h (by simp)
    · rw [if_neg hp] at h
      simp [List.count_cons, hp, ih h, Ne.symm hp]

lemma count_connectPass_isSome (active : List String) (taps : TapMap)
    (sources : List Source) (fresh : Nat) (id : String)
    (h : (lookupTap taps id).isSome) :
    ((connectPass active taps sources fresh).1.map Prod.fst).count id
      = (taps.map Prod.fst).count id := by
  induction active generalizing taps fresh with
  | nil => simp [connectPass]
  | cons a rest ih =>
    by_cases h1 : (lookupTap taps a).isNone
    · by_cases h2 : hasAudio sources a
      · have hne : a ≠ id := by
          intro he; subst he
          rw [Option.isNone_iff_eq_none] at h1
          rw [h1] at h; simp at h
        have hsome : (lookupTap (taps ++ [(a, fresh)]) id).isSome := by
          rw [lookupTap_append, if_pos h]; exact h
        simp only [connectPass, h1, h2, if_true]
        rw [ih _ (fresh + 1) hsome]
        simp [List.count_append, hne, Ne.symm hne]
      · simp only [connectPass, h1, h2, if_true, if_false]
        exact ih taps fresh h
    · simp only [connectPass, h1, if_false]
      exact ih taps fresh h

lemma count_connectPass_new (active : List String) (taps : TapMap)
    (sources : List Source) (fresh : Nat) (id : String)
    (hnone : lookupTap taps id = none) (hmem : id ∈ active)
    (haud : hasAudio sources id) :
    ((connectPass active taps sources fresh).1.map Prod.fst).count id
      = (taps.map Prod.fst).count id + 1 := by
  induction active generalizing taps fresh with
  | nil => exact absurd hmem (List.not_mem_nil id)
  | cons a rest ih =>
    by_cases hae : a = id
    · subst hae
      have h1 : (lookupTap taps a).isNone := by rw [hnone]; rfl
      simp only [connectPass, h1, haud, if_true]
      have hsome : (lookupTap (taps ++ [(a, fresh)]) a).isSome := by
        rw [lookupTap_append, hnone]
        simp
      rw [count_connectPass_isSome rest _ sources (fresh + 1) a hsome]
      simp [List.count_append]
    · have hrest : id ∈ rest := by
        rcases List.mem_cons.mp hmem with h | h
        · exact absurd h.symm hae
        · exact h
      by_cases h1 : (lookupTap taps a).isNone
      · by_cases h2 : hasAudio sources a
        · have happ : lookupTap (taps ++ [(a, fresh)]) id = none := by
            rw [lookupTap_append, hnone]
            simp [hae]
          simp only [connectPass, h1, h2, if_true]
          rw [ih _ (fresh + 1) happ hrest]
          simp [List.count_append, hae, Ne.symm hae]
        · simp only [connectPass, h1, h2, if_true, if_false]
          exact ih taps fresh hnone hrest
      · simp only [connectPass, h1, if_false]
        exact ih taps fresh hnone hrest

/-! ## Theorems -/

/-- C1 (counterexample): source "B" is removed from the registry (the
registry is empty) while "B" is still in the active set and still has a
connected tap; the reconciliation pass leaves B's tap connected, so the
claimed invariant "connected taps = active ids whose source exists and
carries audio" is false at this input — the tap is not defensively
disconnected. -/
theorem tap_invariant_counterexample :
    ¬ ((lookupTap (reconcile [("B", 0)] ["B"] [] 0).1 "B").isSome ↔
        ((["B"] : List String).contains "B" ∧ hasAudio [] "B")) := by
  decide

/-- C1 (amended): between reconciliation passes, a tap is connected for an
id iff the id is active and either already had a tap (even when its source
has since been removed from the registry) or its source exists in the
registry and carries audio. In particular, a source removed while its id is
still active keeps its tap connected; only ids that leave the active set are
disconnected. -/
theorem reconcile_connected_iff (taps : TapMap) (active : List String)
    (sources : List Source) (fresh : Nat) (id : String) :
    (lookupTap (reconcile taps active sources fresh).1 id).isSome ↔
      (active.contains id ∧
        ((lookupTap taps id).isSome ∨ hasAudio sources id)) := by
  unfold reconcile
  by_cases hact : active.contains id = true
  · have hmem : id ∈ active := by simpa using hact
    have hdisc : lookupTap (disconnectPass taps active) id = lookupTap taps id := by
      rw [lookupTap_disconnectPass, if_pos hact]
    by_cases hs : (lookupTap taps id).isSome
    · rw [lookupTap_connectPass_isSome _ _ _ _ _ (by rw [hdisc]; exact hs), hdisc]
      simp [hmem, hs]
    · have hnone : lookupTap taps id = none := by
        cases hv : lookupTap taps id with
        | none => rfl
        | some v => rw [hv] at hs; simp at hs
      by_cases haud : hasAudio sources id
      · obtain ⟨t, _, hl⟩ := lookupTap_connectPass_new active _ sources fresh id
          (by rw [hdisc]; exact hnone) hmem haud
        rw [hl]
        simp [hmem, haud]
      · rw [lookupTap_connectPass_noAudio active _ sources fresh id
          (by rw [hdisc]; exact hnone) haud]
        simp [hmem, hs, haud]
  · have hnmem : id ∉ active := by
      intro hm
      exact hact (by simpa using hm)
    have hdisc : lookupTap (disconnectPass taps active) id = none := by
      rw [lookupTap_disconnectPass, if_neg hact]
    rw [lookupTap_connectPass_notMem _ _ _ _ _ hnmem, hdisc]
    simp [hnmem]

/-- C5: one reconciliation pass (1) leaves the tap of every still-active
tapped id untouched — the very same node token, never recreated; (2)
disconnects exactly the taps whose ids are no longer active; (3) creates
exactly one new tap (a fresh node token) for each newly active id whose
source exists and carries audio; (4) creates no tap for a newly active id
without an audio-carrying source. -/
theorem reconcile_diff_spec (taps : TapMap) (active : List String)
    (sources : List Source) (fresh : Nat) :
    (∀ id, active.contains id → (lookupTap taps id).isSome →
      lookupTap (reconcile taps active sources fresh).1 id = lookupTap taps id) ∧
    (∀ id, ¬ active.contains id →
      lookupTap (reconcile taps active sources fresh).1 id = none) ∧
    (∀ id, active.contains id → lookupTap taps id = none → hasAudio sources id →
      ∃ t, fresh ≤ t ∧
        lookupTap (reconcile taps active sources fresh).1 id = some t ∧
        ((reconcile taps active sources fresh).1.map Prod.fst).count id = 1) ∧
    (∀ id, active.contains id → lookupTap taps id = none → ¬ hasAudio sources id →
      lookupTap (reconcile taps active sources fresh).1 id = none) := by
  refine ⟨?_, ?_, ?_, ?_⟩
  · intro id hact hs
    have hdisc : lookupTap (disconnectPass taps active) id = lookupTap taps id := by
      rw [lookupTap_disconnectPass, if_pos (by simpa using hact)]
    unfold reconcile
    rw [lookupTap_connectPass_isSome _ _ _ _ _ (by rw [hdisc]; exact hs), hdisc]
  · intro id hact
    have hnmem : id ∉ active := by
      intro hm
      exact hact (by simpa using hm)
    have hdisc : lookupTap (disconnectPass taps active) id = none := by
      rw [lookupTap_disconnectPass, if_neg (by simpa using hact)]
    unfold reconcile
    rw [lookupTap_connectPass_notMem _ _ _ _ _ hnmem, hdisc]
  · intro id hact hnone haud
    have hmem : id ∈ active := by simpa using hact
    have hdisc : lookupTap (disconnectPass taps active) id = none := by
      rw [lookupTap_disconnectPass, if_pos (by simpa using hact), hnone]
    obtain ⟨t, ht, hl⟩ :=
      lookupTap_connectPass_new active _ sources fresh id hdisc hmem haud
    refine ⟨t, ht, hl, ?_⟩
    unfold reconcile
    rw [count_connectPass_new active _ sources fresh id hdisc hmem haud,
      count_eq_zero_of_lookupTap_none _ _ hdisc]
  · intro id hact hnone haud
    have hdisc : lookupTap (disconnectPass taps active) id = none := by
      rw [lookupTap_disconnectPass, if_pos (by simpa using hact), hnone]
    unfold reconcile
    rw [lookupTap_connectPass_noAudio active _ sources fresh id hdisc haud]

/-- Two demo sources, both carrying one audio track, for the C5 scenario. -/
def demoSources : List Source :=
  [⟨"A", "Camera A", SourceType.camera, 1, none⟩,
   ⟨"B", "Camera B", SourceType.camera, 1, none⟩]

/-- Witness for C5: the spec scenario. Active {A,B} with taps (A↦0, B↦1);
removing B disconnects B's tap and keeps A's token 0 untouched; re-adding B
creates exactly one new tap with a fresh token while A keeps token 0. -/
theorem reconcile_diff_spec_witness :
    lookupTap (reconcile [("A", 0), ("B", 1)] ["A"] demoSources 2).1 "B" = none ∧
    lookupTap (reconcile [("A", 0), ("B", 1)] ["A"] demoSources 2).1 "A"
      = lookupTap [("A", 0), ("B", 1)] "A" ∧
    lookupTap (reconcile [("A", 0)] ["A", "B"] demoSources 2).1 "A"
      = lookupTap [("A", 0)] "A" ∧
    (∃ t, 2 ≤ t ∧
      lookupTap (reconcile [("A", 0)] ["A", "B"] demoSources 2).1 "B" = some t ∧
      ((reconcile [("A", 0)] ["A", "B"] demoSources 2).1.map Prod.fst).count "B" = 1) :=
  ⟨(reconcile_diff_spec [("A", 0), ("B", 1)] ["A"] demoSources 2).2.1 "B" (by decide),
   (reconcile_diff_spec [("A", 0), ("B", 1)] ["A"] demoSources 2).1 "A"
     (by decide) (by decide),
   (reconcile_diff_spec [("A", 0)] ["A", "B"] demoSources 2).1 "A"
     (by decide) (by decide),
   (reconcile_diff_spec [("A", 0)] ["A", "B"] demoSources 2).2.2.1 "B"
     (by decide) (by decide) (by decide)⟩

lemma tickerIter_formula (N : Nat) (hN : N ≤ 251) :
    tickerIter 1280 500 N = -2 * N := by
  induction N with
  | zero => simp [tickerIter]
  | succ n ih =>
    have hn : n ≤ 251 := Nat.le_of_succ_le hN
    have hn250 : n ≤ 250 := Nat.lt_succ_iff.mp hN
    have hval := ih hn
    have hnotreset : ¬ ((-2 : ℚ) * n < -500) := by
      have : (n : ℚ) ≤ 250 := by exact_mod_cast hn250
      nlinarith
    have : tickerIter 1280 500 (n + 1)
        = tickerStep 1280 500 (tickerIter 1280 500 n) := rfl
    rw [this, hval, tickerStep, if_neg hnotreset]
    push_cast
    ring

/-- C8: starting from offset 0 with measured text width 500 on a 1280-wide
canvas, the ticker offset equals −2N after N ticks for all N ≤ 251 (at
N = 251 it is −502 < −500, the first value below −textWidth), and the next
tick, N = 252, resets the offset to the canvas width 1280. -/
theorem ticker_offset_formula_and_reset :
    (∀ N : Nat, N ≤ 251 → tickerIter 1280 500 N = -2 * N) ∧
      tickerIter 1280 500 252 = 1280 := by
  refine ⟨tickerIter_formula, ?_⟩
  have h251 : tickerIter 1280 500 251 = -502 := by
    have := tickerIter_formula 251 (by norm_num)
    rw [this]; norm_num
  have : tickerIter 1280 500 252 = tickerStep 1280 500 (tickerIter 1280 500 251) := rfl
  rw [this, h251, tickerStep, if_pos (by norm_num)]

/-- Witness for C8 at concrete tick counts. -/
theorem ticker_offset_formula_and_reset_witness :
    tickerIter 1280 500 7 = -2 * (7 : Nat) ∧ tickerIter 1280 500 252 = 1280 :=
  ⟨ticker_offset_formula_and_reset.1 7 (by norm_num),
   ticker_offset_formula_and_reset.2⟩

/-- C10: toggleStagePresence keeps the stage at ≤ 2 ids; toggling an id
already on stage removes exactly that id; toggling a new id with fewer than
2 on stage appends it; toggling a new id with 2 already on stage leaves the
stage unchanged (no eviction). -/
theorem toggleStagePresence_spec (prev : List String) (sourceId : String)
    (hcard : prev.length ≤ 2) :
    (toggleStagePresence sourceId prev).length ≤ 2 ∧
    (sourceId ∈ prev →
      sourceId ∉ toggleStagePresence sourceId prev ∧
      ∀ j, j ≠ sourceId → (j ∈ toggleStagePresence sourceId prev ↔ j ∈ prev)) ∧
    (sourceId ∉ prev → prev.length < 2 →
      toggleStagePresence sourceId prev = prev ++ [sourceId]) ∧
    (sourceId ∉ prev → prev.length = 2 →
      toggleStagePresence sourceId prev = prev) := by
  refine ⟨?_, ?_, ?_, ?_⟩
  · by_cases hmem : sourceId ∈ prev
    · have : toggleStagePresence sourceId prev
          = prev.filter (fun id => id ≠ sourceId) := by
        simp [toggleStagePresence, hmem]
      rw [this]
      exact le_trans (List.length_filter_le _ _) hcard
    · by_cases hlen : prev.length < 2
      · have : toggleStagePresence sourceId prev = prev ++ [sourceId] := by
          simp [toggleStagePresence, hmem, hlen]
        rw [this]; simp; omega
      · have : toggleStagePresence sourceId prev = prev := by
          simp [toggleStagePresence, hmem, hlen]
        rw [this]; exact hcard
  · intro hmem
    have heq : toggleStagePresence sourceId prev
        = prev.filter (fun id => id ≠ sourceId) := by
      simp [toggleStagePresence, hmem]
    constructor
    · rw [heq]; simp
    · intro j hj; rw [heq]; simp [hj]
  · intro hmem hlen
    simp [toggleStagePresence, hmem, hlen]
  · intro hmem hlen
    simp [toggleStagePresence, hmem, hlen]

/-- Witness for C10 at a concrete two-id stage. -/
theorem toggleStagePresence_spec_witness :
    (toggleStagePresence "C" ["A", "B"]).length ≤ 2 ∧
    ("C" ∉ (["A", "B"] : List String) → (["A", "B"] : List String).length = 2 →
      toggleStagePresence "C" ["A", "B"] = ["A", "B"]) := by
  have h := toggleStagePresence_spec ["A", "B"] "C" (by decide)
  exact ⟨h.1, h.2.2.2⟩
/-- C6: when fewer than 2 active sources are drawable, every layout mode
degrades to solo framing: zero drawables render the placeholder, one
drawable is drawn full-canvas with contain fit — no error, no out-of-range
indexing, whatever 2-source layout was requested. -/
theorem degrade_to_solo (sources : List Source) (active : List String)
    (layout : LayoutMode) (cw ch : ℚ) :
    (drawableSources sources active = [] →
      videoPass sources active layout cw ch = VideoPass.placeholder) ∧
    (∀ item1, drawableSources sources active = [item1] →
      videoPass sources active layout cw ch
        = VideoPass.draws [⟨item1.source, ⟨0, 0, cw, ch⟩, Fit.contain, false⟩]) := by
  constructor
  · intro h
    unfold videoPass
    rw [h]
  · intro item1 h
    unfold videoPass
    rw [h]
    simp [drawSource, effectiveFit_contain]

/-- Witness for C6: a single drawable camera under the 2-source sidebar
layout renders solo full-canvas contain; an empty stage renders the
placeholder. -/
theorem degrade_to_solo_witness :
    videoPass [camItemDemo.source] ["cam"] LayoutMode.sidebar 1280 720
      = VideoPass.draws [⟨camItemDemo.source, ⟨0, 0, 1280, 720⟩, Fit.contain, false⟩] ∧
    videoPass [] ["cam"] LayoutMode.sidebar 1280 720 = VideoPass.placeholder :=
  ⟨(degrade_to_solo [camItemDemo.source] ["cam"] LayoutMode.sidebar 1280 720).2
      camItemDemo rfl,
   (degrade_to_solo [] ["cam"] LayoutMode.sidebar 1280 720).1 rfl⟩

/-- C2 (counterexample): in the cinematic layout the secondary source is
drawn by calling drawImageCover directly inside the circular clip, bypassing
drawSource's screen→contain override; with a screen share as secondary
source its placement uses cover fit, so the claim "a screen source is always
drawn contain in every 2-source position" is false. -/
theorem screen_contain_counterexample :
    ¬ (∀ p ∈ twoSourcePlacements [camItemDemo, scrItemDemo] camItemDemo scrItemDemo
          LayoutMode.cinematic 1280 720,
        p.src.type = SourceType.screen → p.fit = Fit.contain) := by
  intro h
  have hmem : (⟨scrItemDemo.source,
      ⟨1280 - 1280 * (1 / 10) - 1280 * (15 / 1000) - 1280 * (1 / 10),
       720 - 1280 * (1 / 10) - 1280 * (15 / 1000) - 1280 * (1 / 10),
       1280 * (1 / 10) * 2, 1280 * (1 / 10) * 2⟩,
      Fit.cover, true⟩ : Placement)
      ∈ twoSourcePlacements [camItemDemo, scrItemDemo] camItemDemo scrItemDemo
          LayoutMode.cinematic 1280 720 := by
    rw [twoSourcePlacements_cinematic]
    exact List.mem_cons_of_mem _ (List.mem_cons_self _ _)
  have hfit := h _ hmem rfl
  exact absurd hfit (by simp)

lemma mem_twoSourcePlacements_fit (ds : List Item) (item1 item2 : Item)
    (layout : LayoutMode) (cw ch : ℚ) (p : Placement)
    (hp : p ∈ twoSourcePlacements ds item1 item2 layout cw ch)
    (hscr : p.src.type = SourceType.screen) (hclip : p.circleClip = false) :
    p.fit = Fit.contain := by
  cases layout with
  | sideBySide =>
    rw [twoSourcePlacements_sideBySide] at hp
    rcases mem_pair hp with h | h <;>
      (subst h; exact effectiveFit_of_screen _ _ hscr)
  | splitVertical =>
    rw [twoSourcePlacements_splitVertical] at hp
    rcases mem_pair hp with h | h <;>
      (subst h; exact effectiveFit_of_screen _ _ hscr)
  | heroBelow =>
    rw [twoSourcePlacements_heroBelow] at hp
    rcases mem_pair hp with h | h <;>
      (subst h; exact effectiveFit_of_screen _ _ hscr)
  | cinematic =>
    rw [twoSourcePlacements_cinematic] at hp
    rcases mem_pair hp with h | h
    · subst h; exact effectiveFit_of_screen _ _ hscr
    · subst h; exact absurd hclip (by simp)
  | pip =>
    rw [twoSourcePlacements_pip] at hp
    rcases mem_pair hp with h | h <;>
      (subst h; exact effectiveFit_of_screen _ _ hscr)
  | solo =>
    rw [twoSourcePlacements_solo] at hp
    rcases mem_pair hp with h | h <;>
      (subst h; exact effectiveFit_of_screen _ _ hscr)
  | sidebar =>
    obtain ⟨sIt, cIt, heq⟩ := sidebar_placements_cases ds item1 item2 cw ch
    rw [heq] at hp
    rcases mem_pair hp with h | h <;>
      (subst h; exact effectiveFit_of_screen _ _ hscr)

/-- C2 (amended): every placement of a screen-type source that goes through
drawSource is drawn contain, in all layout modes and positions; the single
exception is the cinematic secondary inset, which is drawn cover directly
through the circular clip (circleClip = true). -/
theorem screen_drawn_contain (sources : List Source) (active : List String)
    (layout : LayoutMode) (cw ch : ℚ) (ps : List Placement) (p : Placement)
    (hvp : videoPass sources active layout cw ch = VideoPass.draws ps)
    (hp : p ∈ ps) (hscr : p.src.type = SourceType.screen)
    (hclip : p.circleClip = false) :
    p.fit = Fit.contain := by
  unfold videoPass at hvp
  rcases hds : drawableSources sources active with _ | ⟨item1, _ | ⟨item2, rest⟩⟩ <;>
    rw [hds] at hvp
  · exact absurd hvp (by simp)
  · rw [VideoPass.draws.injEq] at hvp
    subst hvp
    rcases List.mem_cons.mp hp with h | h
    · subst h
      exact effectiveFit_of_screen _ _ hscr
    · exact absurd h (List.not_mem_nil p)
  · rw [VideoPass.draws.injEq] at hvp
    subst hvp
    exact mem_twoSourcePlacements_fit _ _ _ _ _ _ p hp hscr hclip

/-- Witness for C2 (amended): a lone screen share on stage is drawn contain. -/
theorem screen_drawn_contain_witness :
    (⟨scrItemDemo.source, ⟨0, 0, 1280, 720⟩, Fit.contain, false⟩ : Placement).fit
      = Fit.contain :=
  screen_drawn_contain [scrItemDemo.source] ["scr"] LayoutMode.pip 1280 720
    [⟨scrItemDemo.source, ⟨0, 0, 1280, 720⟩, Fit.contain, false⟩]
    ⟨scrItemDemo.source, ⟨0, 0, 1280, 720⟩, Fit.contain, false⟩
    rfl (List.mem_cons_self _ _) rfl rfl

/-- C4 (counterexample): in the sidebar layout the camera inset height is
width / aspect with no clamping; a 72 × 720 camera (aspect 1:10) gives an
inset of height 2560 starting at y = 36 on a 720-pixel-high canvas, so the
claim "every drawn-source placement rectangle lies within [0,cw] × [0,ch]"
is false. -/
theorem layout_bounds_counterexample :
    ¬ (∀ p ∈ twoSourcePlacements [camItemDemo, scrItemDemo] camItemDemo scrItemDemo
          LayoutMode.sidebar 1280 720,
        rectInBounds p.rect 1280 720) := by
  intro h
  have hf1 : ([camItemDemo, scrItemDemo] : List Item).find?
      (fun it => it.source.type = SourceType.screen) = some scrItemDemo := rfl
  have hf2 : ([camItemDemo, scrItemDemo] : List Item).find?
      (fun it => it.source.type = SourceType.camera) = some camItemDemo := rfl
  have hmem : drawSource camItemDemo (1280 * (25 / 100) * (1 / 10)) (720 * (5 / 100))
      (1280 * (25 / 100) - 1280 * (25 / 100) * (1 / 10) * 2)
      ((1280 * (25 / 100) - 1280 * (25 / 100) * (1 / 10) * 2)
        / videoRatio camItemDemo.image) Fit.cover
      ∈ twoSourcePlacements [camItemDemo, scrItemDemo] camItemDemo scrItemDemo
          LayoutMode.sidebar 1280 720 := by
    rw [twoSourcePlacements_sidebar_pair [camItemDemo, scrItemDemo] camItemDemo
      scrItemDemo 1280 720 scrItemDemo camItemDemo (by rw [hf1, hf2])]
    exact List.mem_cons_of_mem _ (List.mem_cons_self _ _)
  have hb := (h _ hmem).2.2.2
  norm_num [drawSource, videoRatio, camItemDemo] at hb

/-- C4 (amended): on the 1280 × 720 canvas every two-source placement
rectangle respects the horizontal bounds 0 ≤ x and x + w ≤ 1280 and starts
at y ≥ 0 in every layout mode; the bottom bound y + h ≤ 720 holds in every
layout except sidebar, where the only rectangle that can exceed it is the
camera inset (y = 36, width 256, height = width / aspect, unclamped). -/
theorem layout_bounds_amended (ds : List Item) (item1 item2 : Item)
    (layout : LayoutMode) (p : Placement)
    (hp : p ∈ twoSourcePlacements ds item1 item2 layout 1280 720) :
    (0 ≤ p.rect.x ∧ p.rect.x + p.rect.w ≤ 1280 ∧ 0 ≤ p.rect.y) ∧
    (layout ≠ LayoutMode.sidebar → p.rect.y + p.rect.h ≤ 720) ∧
    (layout = LayoutMode.sidebar →
      p.rect.y + p.rect.h ≤ 720 ∨ (p.rect.y = 36 ∧ p.rect.w = 256)) := by
  cases layout with
  | sideBySide =>
    rw [twoSourcePlacements_sideBySide] at hp
    rcases mem_pair hp with h | h <;> subst h <;>
      exact ⟨by norm_num [drawSource], fun _ => by norm_num [drawSource],
        fun hc => by cases hc⟩
  | splitVertical =>
    rw [twoSourcePlacements_splitVertical] at hp
    rcases mem_pair hp with h | h <;> subst h <;>
      exact ⟨by norm_num [drawSource], fun _ => by norm_num [drawSource],
        fun hc => by cases hc⟩
  | heroBelow =>
    rw [twoSourcePlacements_heroBelow] at hp
    rcases mem_pair hp with h | h <;> subst h <;>
      exact ⟨by norm_num [drawSource], fun _ => by norm_num [drawSource],
        fun hc => by cases hc⟩
  | cinematic =>
    rw [twoSourcePlacements_cinematic] at hp
    rcases mem_pair hp with h | h <;> subst h <;>
      exact ⟨by norm_num [drawSource], fun _ => by norm_num [drawSource],
        fun hc => by cases hc⟩
  | pip =>
    rw [twoSourcePlacements_pip] at hp
    rcases mem_pair hp with h | h <;> subst h <;>
      exact ⟨by norm_num [drawSource], fun _ => by norm_num [drawSource],
        fun hc => by cases hc⟩
  | solo =>
    rw [twoSourcePlacements_solo] at hp
    rcases mem_pair hp with h | h <;> subst h <;>
      exact ⟨by norm_num [drawSource], fun _ => by norm_num [drawSource],
        fun hc => by cases hc⟩
  | sidebar =>
    obtain ⟨sIt, cIt, heq⟩ := sidebar_placements_cases ds item1 item2 1280 720
    rw [heq] at hp
    rcases mem_pair hp with h | h
    · subst h
      exact ⟨by norm_num [drawSource], fun hne => absurd rfl hne,
        fun _ => Or.inl (by norm_num [drawSource])⟩
    · subst h
      exact ⟨by norm_num [drawSource], fun hne => absurd rfl hne,
        fun _ => Or.inr ⟨by norm_num [drawSource], by norm_num [drawSource]⟩⟩

/-- Witness for C4 (amended) at the side-by-side left half. -/
theorem layout_bounds_amended_witness :
    (0 ≤ (drawSource camItemDemo 0 0 ((1280 : ℚ) / 2) 720 Fit.contain).rect.x ∧
      (drawSource camItemDemo 0 0 ((1280 : ℚ) / 2) 720 Fit.contain).rect.x
          + (drawSource camItemDemo 0 0 ((1280 : ℚ) / 2) 720 Fit.contain).rect.w
        ≤ 1280 ∧
      0 ≤ (drawSource camItemDemo 0 0 ((1280 : ℚ) / 2) 720 Fit.contain).rect.y) ∧
    (LayoutMode.sideBySide ≠ LayoutMode.sidebar →
      (drawSource camItemDemo 0 0 ((1280 : ℚ) / 2) 720 Fit.contain).rect.y
          + (drawSource camItemDemo 0 0 ((1280 : ℚ) / 2) 720 Fit.contain).rect.h
        ≤ 720) ∧
    (LayoutMode.sideBySide = LayoutMode.sidebar →
      (drawSource camItemDemo 0 0 ((1280 : ℚ) / 2) 720 Fit.contain).rect.y
          + (drawSource camItemDemo 0 0 ((1280 : ℚ) / 2) 720 Fit.contain).rect.h
        ≤ 720 ∨
      ((drawSource camItemDemo 0 0 ((1280 : ℚ) / 2) 720 Fit.contain).rect.y = 36 ∧
       (drawSource camItemDemo 0 0 ((1280 : ℚ) / 2) 720 Fit.contain).rect.w = 256)) :=
  layout_bounds_amended [camItemDemo, scrItemDemo] camItemDemo scrItemDemo
    LayoutMode.sideBySide
    (drawSource camItemDemo 0 0 ((1280 : ℚ) / 2) 720 Fit.contain)
    (by rw [twoSourcePlacements_sideBySide]; exact List.mem_cons_self _ _)

/-- C7: for every 2-source layout mode the two placement rectangles have
zero-area intersection (at most touching on a boundary) in side-by-side,
split-vertical, hero-below and sidebar — for sources of any aspect ratio —
while in pip and cinematic the secondary rectangle overlaps the full-canvas
primary with positive area, by design. -/
theorem two_source_rects_disjoint (ds : List Item) (item1 item2 : Item)
    (layout : LayoutMode) (p1 p2 : Placement)
    (hp : twoSourcePlacements ds item1 item2 layout 1280 720 = [p1, p2]) :
    ((layout = LayoutMode.sideBySide ∨ layout = LayoutMode.splitVertical ∨
      layout = LayoutMode.heroBelow ∨ layout = LayoutMode.sidebar) →
      interArea p1.rect p2.rect = 0) ∧
    ((layout = LayoutMode.pip ∨ layout = LayoutMode.cinematic) →
      0 < interArea p1.rect p2.rect) := by
  cases layout with
  | sideBySide =>
    rw [twoSourcePlacements_sideBySide] at hp
    simp only [List.cons.injEq, and_true] at hp
    obtain ⟨h1, h2⟩ := hp
    subst h1; subst h2
    refine ⟨fun _ => ?_, fun hc => (by rcases hc with hc | hc <;> cases hc)⟩
    norm_num [interArea, drawSource, min_def, max_def]
  | splitVertical =>
    rw [twoSourcePlacements_splitVertical] at hp
    simp only [List.cons.injEq, and_true] at hp
    obtain ⟨h1, h2⟩ := hp
    subst h1; subst h2
    refine ⟨fun _ => ?_, fun hc => (by rcases hc with hc | hc <;> cases hc)⟩
    norm_num [interArea, drawSource, min_def, max_def]
  | heroBelow =>
    rw [twoSourcePlacements_heroBelow] at hp
    simp only [List.cons.injEq, and_true] at hp
    obtain ⟨h1, h2⟩ := hp
    subst h1; subst h2
    refine ⟨fun _ => ?_, fun hc => (by rcases hc with hc | hc <;> cases hc)⟩
    norm_num [interArea, drawSource, min_def, max_def]
  | cinematic =>
    rw [twoSourcePlacements_cinematic] at hp
    simp only [List.cons.injEq, and_true] at hp
    obtain ⟨h1, h2⟩ := hp
    subst h1; subst h2
    refine ⟨fun hc => (by rcases hc with hc | hc | hc | hc <;> cases hc), fun _ => ?_⟩
    norm_num [interArea, drawSource, min_def, max_def]
  | pip =>
    rw [twoSourcePlacements_pip] at hp
    simp only [List.cons.injEq, and_true] at hp
    obtain ⟨h1, h2⟩ := hp
    subst h1; subst h2
    refine ⟨fun hc => (by rcases hc with hc | hc | hc | hc <;> cases hc), fun _ => ?_⟩
    norm_num [interArea, drawSource, min_def, max_def]
  | solo =>
    rw [twoSourcePlacements_solo] at hp
    simp only [List.cons.injEq, and_true] at hp
    obtain ⟨h1, h2⟩ := hp
    subst h1; subst h2
    exact ⟨fun hc => (by rcases hc with hc | hc | hc | hc <;> cases hc),
      fun hc => (by rcases hc with hc | hc <;> cases hc)⟩
  | sidebar =>
    obtain ⟨sIt, cIt, heq⟩ := sidebar_placements_cases ds item1 item2 1280 720
    rw [heq] at hp
    simp only [List.cons.injEq, and_true] at hp
    obtain ⟨h1, h2⟩ := hp
    subst h1; subst h2
    refine ⟨fun _ => ?_, fun hc => (by rcases hc with hc | hc <;> cases hc)⟩
    norm_num [interArea, drawSource, min_def, max_def]

/-- Witness for C7 at the concrete side-by-side halves. -/
theorem two_source_rects_disjoint_witness :
    interArea (drawSource camItemDemo 0 0 ((1280 : ℚ) / 2) 720 Fit.contain).rect
      (drawSource scrItemDemo ((1280 : ℚ) / 2) 0 ((1280 : ℚ) / 2) 720 Fit.contain).rect
      = 0 :=
  (two_source_rects_disjoint [camItemDemo, scrItemDemo] camItemDemo scrItemDemo
      LayoutMode.sideBySide
      (drawSource camItemDemo 0 0 ((1280 : ℚ) / 2) 720 Fit.contain)
      (drawSource scrItemDemo ((1280 : ℚ) / 2) 0 ((1280 : ℚ) / 2) 720 Fit.contain)
      (twoSourcePlacements_sideBySide [camItemDemo, scrItemDemo] camItemDemo
        scrItemDemo 1280 720)).1 (Or.inl rfl)

lemma filter_cons_eq (p : Layer → Bool) (L : Layer) (rest : List Layer) :
    (L :: rest).filter p = (if p L then [L] else []) ++ rest.filter p := by
  rw [List.filter_cons]
  split <;> simp

/-- C9: on every tick the overlay stack of the composed frame (drawn after
the color filter is reset) consists of exactly the enabled overlays, in the
fixed, non-configurable bottom-to-top order: uploaded image/video overlay,
procedural overlay, freestyle text, ticker, logo, bullet list, banner,
lower third, countdown (topmost). -/
theorem overlay_order_fixed (sources : List Source) (active : List String)
    (layout : LayoutMode) (s : OverlaySettings) (a : AssetState)
    (countdownTime : Nat) (cw ch tickerX : ℚ) :
    ((renderCanvas sources active layout s a countdownTime cw ch tickerX).1.overlays).map
        layerOf
      = layerOrder.filter (layerEnabled s a) := by
  simp only [renderCanvas, overlayPass, layerOrder, filter_cons_eq,
    List.filter_nil, List.append_nil, List.map_append,
    apply_ite (List.map layerOf), List.map_cons, List.map_nil, layerOf,
    layerEnabled, List.append_assoc]

/-- Settings with only the ticker overlay enabled (text "Breaking news"). -/
def tickerOnlySettings : OverlaySettings :=
  ⟨⟨false, none⟩, ⟨false⟩, ⟨false⟩, ⟨false, "none", none, OverlayType.procedural⟩,
   ⟨100, 100, 100, false⟩, ⟨false⟩, ⟨true, "Breaking news"⟩, ⟨[], none, false⟩,
   ⟨false, ""⟩⟩

/-- Settings with every overlay hidden. -/
def quietSettings : OverlaySettings :=
  ⟨⟨false, none⟩, ⟨false⟩, ⟨false⟩, ⟨false, "none", none, OverlayType.procedural⟩,
   ⟨100, 100, 100, false⟩, ⟨false⟩, ⟨false, "Breaking news"⟩, ⟨[], none, false⟩,
   ⟨false, ""⟩⟩

/-- Asset snapshot with nothing loaded and measured ticker width 500. -/
def demoAssets : AssetState := ⟨false, 0, 0, false, 0, 500⟩

/-- C3 (counterexample): renderCanvas is not idempotent. With the ticker
overlay enabled, two consecutive calls on identical inputs and identical
asset-ready state produce different frames, because the first call mutates
the persistent ticker offset (0 becomes −2) and the second call draws the
ticker text at the new offset. -/
theorem render_idempotent_counterexample :
    (renderCanvas [] [] LayoutMode.solo tickerOnlySettings demoAssets 0
        1280 720 0).1
      ≠ (renderCanvas [] [] LayoutMode.solo tickerOnlySettings demoAssets 0
          1280 720
          (renderCanvas [] [] LayoutMode.solo tickerOnlySettings demoAssets 0
            1280 720 0).2).1 := by
  have hstate : (renderCanvas [] [] LayoutMode.solo tickerOnlySettings demoAssets 0
      1280 720 0).2 = -2 := by
    norm_num [renderCanvas, overlayPass, tickerStep, tickerOnlySettings, demoAssets]
  have h1 : (renderCanvas [] [] LayoutMode.solo tickerOnlySettings demoAssets 0
      1280 720 0).1.overlays = [OverlayOp.ticker "Breaking news" 0] := by
    norm_num [renderCanvas, overlayPass, tickerOnlySettings, demoAssets,
      uploadedOverlayOn, proceduralOn, freestyleOn, logoOn, bulletListOn, truthy,
      uploadedOverlayMediaReady, activeBulletList]
  have h2 : (renderCanvas [] [] LayoutMode.solo tickerOnlySettings demoAssets 0
      1280 720 (-2)).1.overlays = [OverlayOp.ticker "Breaking news" (-2)] := by
    norm_num [renderCanvas, overlayPass, tickerOnlySettings, demoAssets,
      uploadedOverlayOn, proceduralOn, freestyleOn, logoOn, bulletListOn, truthy,
      uploadedOverlayMediaReady, activeBulletList]
  intro h
  rw [hstate] at h
  have h3 := congrArg Frame.overlays h
  rw [h1, h2] at h3
  simp only [List.cons.injEq, OverlayOp.ticker.injEq, and_true, true_and] at h3
  norm_num at h3

/-- C3 (amended): renderCanvas is a pure function of its inputs plus the
persistent ticker offset; whenever the ticker overlay is hidden the offset
is left unchanged, so consecutive calls with identical inputs and identical
asset-ready state produce identical frames.  (With the ticker shown, each
call advances the offset, so consecutive frames differ — see the
counterexample.) -/
theorem render_idempotent_amended (sources : List Source) (active : List String)
    (layout : LayoutMode) (s : OverlaySettings) (a : AssetState)
    (countdownTime : Nat) (cw ch tickerX : ℚ)
    (hticker : s.ticker.showFlag = false) :
    (renderCanvas sources active layout s a countdownTime cw ch tickerX).2
      = tickerX ∧
    (renderCanvas sources active layout s a countdownTime cw ch
        ((renderCanvas sources active layout s a countdownTime cw ch tickerX).2)).1
      = (renderCanvas sources active layout s a countdownTime cw ch tickerX).1 := by
  have hstate : (renderCanvas sources active layout s a countdownTime cw ch
      tickerX).2 = tickerX := by
    simp [renderCanvas, overlayPass, hticker]
  exact ⟨hstate, by rw [hstate]⟩

/-- Witness for C3 (amended) with all overlays hidden. -/
theorem render_idempotent_amended_witness :
    (renderCanvas [] [] LayoutMode.solo quietSettings demoAssets 0
        1280 720 0).2 = 0 ∧
    (renderCanvas [] [] LayoutMode.solo quietSettings demoAssets 0 1280 720
        ((renderCanvas [] [] LayoutMode.solo quietSettings demoAssets 0
          1280 720 0).2)).1
      = (renderCanvas [] [] LayoutMode.solo quietSettings demoAssets 0
          1280 720 0).1 :=
  render_idempotent_amended [] [] LayoutMode.solo quietSettings demoAssets 0
    1280 720 0 rfl

end AxeStudio
